import Mathlib

/-!
Verification development for the rpigeneui utility (src/rpigeneui.py).

The program reads a platform information text, extracts the serial number
and hardware revision fields from it, and assembles a 16-character EUI
string.  Strings are modelled by Lean strings (lists of characters);
a Python exception (the IndexError raised by indexing element 1 of a
one-element split result) is modelled by the value none of an Option
result; the file system is modelled by an abstract map from paths to
Except results.  The case mapping of str.upper is modelled on the ASCII
range, which is the range the program works in (hexadecimal data).
-/

namespace RpiGenEui

/-- Line boundary characters recognised by the Python splitlines method:
newline, carriage return, vertical tab, form feed, the three ASCII
separator controls, next line, line separator and paragraph separator. -/
def isLineBoundary (c : Char) : Bool :=
  c = '\n' || c = '\r' || c = '\x0b' || c = '\x0c' ||
  c = '\x1c' || c = '\x1d' || c = '\x1e' || c = '\x85' ||
  c = '\u2028' || c = '\u2029'

/-- Worker for `splitlines`: scans the character list, accumulating the
current line in reverse; a carriage return immediately followed by a
newline counts as a single boundary; a trailing boundary does not
produce a final empty line. -/
def splitlinesAux : List Char → List Char → List (List Char)
  | [], acc => if acc.isEmpty then [] else [acc.reverse]
  | '\r' :: '\n' :: rest, acc => acc.reverse :: splitlinesAux rest []
  | c :: rest, acc =>
    if isLineBoundary c then acc.reverse :: splitlinesAux rest []
    else splitlinesAux rest (c :: acc)

/-- The Python splitlines method: split a string into its lines. -/
def splitlines (s : String) : List String :=
  (splitlinesAux s.data []).map String.mk

/-- The Python `in` operator on strings as character lists: does `pat`
occur contiguously inside the second list? -/
def containsSub (pat : List Char) : List Char → Bool
  | [] => pat.isEmpty
  | c :: rest => pat.isPrefixOf (c :: rest) || containsSub pat rest

/-- The separator used by the extraction functions: colon space. -/
def sepColonSpace : List Char := [':', ' ']

/-- Everything after the first occurrence of `sep` in the list, that is
the Python expression `split(sep, 1)[1]`; `none` when the separator does
not occur, which in Python raises an IndexError. -/
def findAfterSep (sep : List Char) : List Char → Option (List Char)
  | [] => none
  | c :: rest =>
    if sep.isPrefixOf (c :: rest) then some ((c :: rest).drop sep.length)
    else findAfterSep sep rest

/-- Raspberry Pi model information file path (src/rpigeneui.py line 31). -/
def F_RPI_INFO : String := "/proc/cpuinfo"

/-- Serial line search text (src/rpigeneui.py line 35). -/
def RPI_SERIAL_PATTERN : String := "Serial"

/-- Revision line search text (src/rpigeneui.py line 36). -/
def RPI_REVISION_PATTERN : String := "Revision"

/-- First octet marking a locally administered EUI (line 39). -/
def EUI_FIRST_OCTECT_LOCAL_ADMINISTRED : String := "02"

/-- Sentinel returned when anything fails (line 42). -/
def INVALID_EUI : String := "FFFFFFFFFFFFFFFF"

/-- Expected EUI-64 length in characters (line 45). -/
def EUI_CHARS_LENGTH : Nat := 16

/-- The scanning loop shared verbatim by `get_rpi_serial_number` (lines
82 to 87) and `get_rpi_revision` (lines 96 to 101): walk the lines,
and on every line containing the search text replace the accumulator by
everything after the first colon space separator on that line; `none`
models the IndexError raised when a matching line has no separator. -/
def fieldScan (pat : List Char) : List String → String → Option String
  | [], acc => some acc
  | line :: rest, acc =>
    if containsSub pat line.data then
      match findAfterSep sepColonSpace line.data with
      | none => none
      | some v => fieldScan pat rest (String.mk v)
    else fieldScan pat rest acc

/-- Get the Raspberry Pi serial number from the information text
(src/rpigeneui.py lines 76 to 87). -/
def get_rpi_serial_number (rpi_info : String) : Option String :=
  fieldScan RPI_SERIAL_PATTERN.data (splitlines rpi_info) ("")

/-- Get the Raspberry Pi revision from the information text
(src/rpigeneui.py lines 90 to 101). -/
def get_rpi_revision (rpi_info : String) : Option String :=
  fieldScan RPI_REVISION_PATTERN.data (splitlines rpi_info) ("")

/-- The Python str.upper call on the ASCII range: uppercase every
character of the string. -/
def strUpper (s : String) : String :=
  String.mk (s.data.map Char.toUpper)

/-- Serial number normalisation (src/rpigeneui.py lines 122 to 124):
a 16 character serial number loses its leading 8 characters. -/
def normalizeSerial (sn : String) : String :=
  if sn.length = 16 then String.mk (sn.data.drop 8) else sn

/-- Create the LoRaWAN EUI from the information text
(src/rpigeneui.py lines 104 to 131): extract both fields, validate the
lengths, normalise the serial number, assemble prefix, revision and
serial number, check the final length and uppercase the result; `none`
models a propagated extraction IndexError. -/
def generate_eui (rpi_info : String) : Option String :=
  match get_rpi_serial_number rpi_info with
  | none => none
  | some rpi_serial_number =>
    match get_rpi_revision rpi_info with
    | none => none
    | some rpi_revision =>
      if rpi_serial_number.length ≠ 16 ∧ rpi_serial_number.length ≠ 8 then
        some INVALID_EUI
      else if rpi_revision.length ≠ 6 then
        some INVALID_EUI
      else if (EUI_FIRST_OCTECT_LOCAL_ADMINISTRED ++ rpi_revision ++
          normalizeSerial rpi_serial_number).length ≠ EUI_CHARS_LENGTH then
        some INVALID_EUI
      else
        some (strUpper (EUI_FIRST_OCTECT_LOCAL_ADMINISTRED ++ rpi_revision ++
          normalizeSerial rpi_serial_number))

/-- Read a whole text file (src/rpigeneui.py lines 65 to 73); the file
system is an abstract map `fs` from paths to either content or an error,
and the try block turns every error into the empty string. -/
def file_read_text (fs : String → Except String String) (file_path : String) :
    String :=
  match fs file_path with
  | Except.error _ => ""
  | Except.ok read => read

/-- Written from the words of the specification, for comparison with the
code: the extracted field value is everything after the first colon space
separator on the LAST line containing the search text, and the empty
string when no line contains it. -/
def specExtract (pat : List Char) (lines : List String) : String :=
  match (lines.filter (fun l => containsSub pat l.data)).getLast? with
  | none => ""
  | some l => String.mk ((findAfterSep sepColonSpace l.data).getD [])

/-- An uppercase hexadecimal digit: 0 to 9 or A to F. -/
def isUpperHexDigit (c : Char) : Bool :=
  (('0' ≤ c) && (c ≤ '9')) || (('A' ≤ c) && (c ≤ 'F'))

/-- Generalisation of `specExtract` to an arbitrary starting accumulator,
used to run the induction for the extraction lemmas. -/
def lastValue (pat : List Char) (lines : List String) (acc : String) : String :=
  match (lines.filter (fun l => containsSub pat l.data)).getLast? with
  | none => acc
  | some l => String.mk ((findAfterSep sepColonSpace l.data).getD [])

/-- The length of a string is the length of its character list. -/
theorem string_length_data (s : String) : s.length = s.data.length := rfl

/-- Uppercasing preserves the length of a string. -/
theorem strUpper_length (s : String) : (strUpper s).length = s.length := by
  rw [string_length_data, string_length_data]
  exact List.length_map _ _

/-- Comparison of 32 bit words is comparison of their numeric values. -/
theorem uint32_le_iff (a b : UInt32) : a ≤ b ↔ a.toNat ≤ b.toNat := by
  rw [UInt32.le_def, BitVec.le_def]
  exact Iff.rfl

set_option maxRecDepth 4096 in
/-- The ASCII uppercase mapping never produces a lowercase letter. -/
theorem toUpper_isLower (c : Char) : (Char.toUpper c).isLower = false := by
  rw [Char.toUpper]
  by_cases h : c.toNat ≥ 97 ∧ c.toNat ≤ 122
  · rw [if_pos h]
    obtain ⟨h1, h2⟩ := h
    set n := Char.toNat c with hn
    interval_cases n <;> decide
  · rw [if_neg h]
    rw [Char.isLower]
    by_contra hb
    rw [Bool.not_eq_false, Bool.and_eq_true, decide_eq_true_eq,
      decide_eq_true_eq] at hb
    apply h
    obtain ⟨hb1, hb2⟩ := hb
    have hb1' := (uint32_le_iff 97 c.val).mp hb1
    have hb2' := (uint32_le_iff c.val 122).mp hb2
    have h97 : (97 : UInt32).toNat = 97 := by decide
    have h122 : (122 : UInt32).toNat = 122 := by decide
    rw [h97] at hb1'
    rw [h122] at hb2'
    exact ⟨hb1', hb2'⟩

/-- If every matching line of `lines` extracts to the character data of
`v`, then scanning with accumulator `v` returns `v`. -/
theorem fieldScan_const (pat : List Char) (lines : List String) (v : String)
    (h : ∀ l ∈ lines, containsSub pat l.data = true →
      findAfterSep sepColonSpace l.data = some v.data) :
    fieldScan pat lines v = some v := by
  induction lines with
  | nil => rfl
  | cons l rest ih =>
    by_cases hc : containsSub pat l.data = true
    · have hf := h l (List.mem_cons_self l rest) hc
      simp only [fieldScan, hc, if_true, hf]
      exact ih (fun l' hl' => h l' (List.mem_cons_of_mem _ hl'))
    · simp only [fieldScan, hc, if_false, Bool.false_eq_true]
      exact ih (fun l' hl' => h l' (List.mem_cons_of_mem _ hl'))

/-- If exactly one line shape matches the search text, the scan returns
the value extracted from it, whatever the starting accumulator. -/
theorem fieldScan_unique (pat : List Char) (lines : List String)
    (acc L0 v : String)
    (hmem : L0 ∈ lines)
    (huniq : ∀ l ∈ lines, containsSub pat l.data = true → l = L0)
    (hcL0 : containsSub pat L0.data = true)
    (hf : findAfterSep sepColonSpace L0.data = some v.data) :
    fieldScan pat lines acc = some v := by
  induction lines generalizing acc with
  | nil => cases hmem
  | cons l rest ih =>
    by_cases hc : containsSub pat l.data = true
    · have hl : l = L0 := huniq l (List.mem_cons_self l rest) hc
      subst hl
      simp only [fieldScan, hc, if_true, hf]
      exact fieldScan_const pat rest v (fun l' hl' hc' => by
        rw [huniq l' (List.mem_cons_of_mem _ hl') hc']
        exact hf)
    · have hmem' : L0 ∈ rest := by
        rcases List.mem_cons.mp hmem with h | h
        · exact absurd (h ▸ hcL0) hc
        · exact h
      simp only [fieldScan, hc, if_false, Bool.false_eq_true]
      exact ih acc hmem' (fun l' hl' => huniq l' (List.mem_cons_of_mem _ hl'))

/-- When no matching line faults, the scan returns the value of the last
matching line, or the starting accumulator when no line matches. -/
theorem fieldScan_lastValue (pat : List Char) (lines : List String)
    (acc : String)
    (h : ∀ l ∈ lines, containsSub pat l.data = true →
      (findAfterSep sepColonSpace l.data).isSome = true) :
    fieldScan pat lines acc = some (lastValue pat lines acc) := by
  induction lines generalizing acc with
  | nil => rfl
  | cons l rest ih =>
    have hrest := fun l' hl' => h l' (List.mem_cons_of_mem _ hl')
    by_cases hc : containsSub pat l.data = true
    · have hs := h l (List.mem_cons_self l rest) hc
      obtain ⟨w, hw⟩ := Option.isSome_iff_exists.mp hs
      simp only [fieldScan, hc, if_true, hw]
      rw [ih (String.mk w) hrest]
      unfold lastValue
      simp only [List.filter_cons, hc, if_true]
      cases hfr : rest.filter (fun l' => containsSub pat l'.data) with
      | nil => simp [hfr, hw]
      | cons x xs =>
        have hy : (x :: xs).getLast? = some ((x :: xs).getLast (by simp)) :=
          List.getLast?_eq_getLast _ _
        simp [hfr, List.getLast?_cons_cons, hy]
    · simp only [fieldScan, hc, if_false, Bool.false_eq_true]
      rw [ih acc hrest]
      unfold lastValue
      simp [List.filter_cons, hc]

/-- The value written from the specification words is the generalised
last-match value started from the empty accumulator. -/
theorem specExtract_eq_lastValue (pat : List Char) (lines : List String) :
    specExtract pat lines = lastValue pat lines ("") := rfl

/-- C1: any input text whose only serial line is
`Serial : 1234567890ABCDEF` and whose only revision line is
`Revision : A03140` makes `generate_eui` return `02A0314090ABCDEF`,
dropping the leading 8 characters of the 16 character serial number and
uppercasing the concatenation of `02`, the revision and the trailing 8
serial characters. -/
theorem generate_eui_standard_input (text : String)
    (hsMem : ("Serial : 1234567890ABCDEF" : String) ∈ splitlines text)
    (hrMem : ("Revision : A03140" : String) ∈ splitlines text)
    (hsOnly : ∀ line ∈ splitlines text,
      containsSub RPI_SERIAL_PATTERN.data line.data = true →
      line = ("Serial : 1234567890ABCDEF" : String))
    (hrOnly : ∀ line ∈ splitlines text,
      containsSub RPI_REVISION_PATTERN.data line.data = true →
      line = ("Revision : A03140" : String)) :
    generate_eui text = some ("02A0314090ABCDEF") := by
  have hS : get_rpi_serial_number text = some ("1234567890ABCDEF") :=
    fieldScan_unique RPI_SERIAL_PATTERN.data (splitlines text) ("")
      ("Serial : 1234567890ABCDEF") ("1234567890ABCDEF")
      hsMem hsOnly (by decide) (by decide)
  have hR : get_rpi_revision text = some ("A03140") :=
    fieldScan_unique RPI_REVISION_PATTERN.data (splitlines text) ("")
      ("Revision : A03140") ("A03140")
      hrMem hrOnly (by decide) (by decide)
  simp only [generate_eui, hS, hR]
  decide

/-- C1 witness: the two line text made of exactly the serial line and the
revision line satisfies every hypothesis and produces the expected EUI. -/
theorem generate_eui_standard_input_witness :
    generate_eui ("Serial : 1234567890ABCDEF\nRevision : A03140") =
      some ("02A0314090ABCDEF") :=
  generate_eui_standard_input ("Serial : 1234567890ABCDEF\nRevision : A03140")
    (by decide) (by decide) (by decide) (by decide)

/-- C6: any input text whose only serial line is `Serial : 90ABCDEF`
(8 character serial, used as is) and whose only revision line is
`Revision : a03140` (lowercase value) makes `generate_eui` return
`02A0314090ABCDEF`: lowercase hexadecimal input is uppercased. -/
theorem generate_eui_short_serial_lowercase (text : String)
    (hsMem : ("Serial : 90ABCDEF" : String) ∈ splitlines text)
    (hrMem : ("Revision : a03140" : String) ∈ splitlines text)
    (hsOnly : ∀ line ∈ splitlines text,
      containsSub RPI_SERIAL_PATTERN.data line.data = true →
      line = ("Serial : 90ABCDEF" : String))
    (hrOnly : ∀ line ∈ splitlines text,
      containsSub RPI_REVISION_PATTERN.data line.data = true →
      line = ("Revision : a03140" : String)) :
    generate_eui text = some ("02A0314090ABCDEF") := by
  have hS : get_rpi_serial_number text = some ("90ABCDEF") :=
    fieldScan_unique RPI_SERIAL_PATTERN.data (splitlines text) ("")
      ("Serial : 90ABCDEF") ("90ABCDEF")
      hsMem hsOnly (by decide) (by decide)
  have hR : get_rpi_revision text = some ("a03140") :=
    fieldScan_unique RPI_REVISION_PATTERN.data (splitlines text) ("")
      ("Revision : a03140") ("a03140")
      hrMem hrOnly (by decide) (by decide)
  simp only [generate_eui, hS, hR]
  decide

/-- C6 witness: the two line text made of exactly the short serial line
and the lowercase revision line satisfies every hypothesis and produces
the expected EUI. -/
theorem generate_eui_short_serial_lowercase_witness :
    generate_eui ("Serial : 90ABCDEF\nRevision : a03140") =
      some ("02A0314090ABCDEF") :=
  generate_eui_short_serial_lowercase ("Serial : 90ABCDEF\nRevision : a03140")
    (by decide) (by decide) (by decide) (by decide)

/-- C5: on the empty input text both extractors return the empty string,
the length validation fails, and `generate_eui` returns the sentinel. -/
theorem generate_eui_empty_input :
    get_rpi_serial_number ("") = some ("") ∧
    get_rpi_revision ("") = some ("") ∧
    generate_eui ("") = some INVALID_EUI := by
  decide

/-- C8: an input whose line contains the label but no colon space
separator makes the extraction fault (the modelled IndexError) instead
of returning a value, for the serial label and for the revision label. -/
theorem extract_missing_separator_faults :
    containsSub RPI_SERIAL_PATTERN.data ("Serial").data = true ∧
    containsSub sepColonSpace ("Serial").data = false ∧
    get_rpi_serial_number ("Serial") = none ∧
    containsSub RPI_REVISION_PATTERN.data ("Revision").data = true ∧
    containsSub sepColonSpace ("Revision").data = false ∧
    get_rpi_revision ("Revision") = none := by
  decide

/-- C3: when every line containing `Serial` also contains the colon
space separator, the serial extractor returns everything after the first
separator occurrence on the LAST such line, and the empty string when no
line contains `Serial`; the same holds for the revision extractor with
`Revision`; in particular with two serial lines the later one wins. -/
theorem extract_last_match_wins (text : String)
    (hs : ∀ line ∈ splitlines text,
      containsSub RPI_SERIAL_PATTERN.data line.data = true →
      (findAfterSep sepColonSpace line.data).isSome = true)
    (hr : ∀ line ∈ splitlines text,
      containsSub RPI_REVISION_PATTERN.data line.data = true →
      (findAfterSep sepColonSpace line.data).isSome = true) :
    get_rpi_serial_number text =
      some (specExtract RPI_SERIAL_PATTERN.data (splitlines text)) ∧
    get_rpi_revision text =
      some (specExtract RPI_REVISION_PATTERN.data (splitlines text)) := by
  rw [specExtract_eq_lastValue, specExtract_eq_lastValue]
  exact ⟨fieldScan_lastValue RPI_SERIAL_PATTERN.data (splitlines text) ("") hs,
    fieldScan_lastValue RPI_REVISION_PATTERN.data (splitlines text) ("") hr⟩

/-- C3 witness: on a text with two serial lines the hypotheses hold and
the extractor returns the value of the later serial line. -/
theorem extract_last_match_wins_witness :
    (get_rpi_serial_number ("Serial : AAAAAAAA\nSerial : BBBBBBBB\nRevision : CCC") =
      some (specExtract RPI_SERIAL_PATTERN.data
        (splitlines ("Serial : AAAAAAAA\nSerial : BBBBBBBB\nRevision : CCC"))) ∧
    get_rpi_revision ("Serial : AAAAAAAA\nSerial : BBBBBBBB\nRevision : CCC") =
      some (specExtract RPI_REVISION_PATTERN.data
        (splitlines ("Serial : AAAAAAAA\nSerial : BBBBBBBB\nRevision : CCC")))) ∧
    specExtract RPI_SERIAL_PATTERN.data
      (splitlines ("Serial : AAAAAAAA\nSerial : BBBBBBBB\nRevision : CCC")) =
      ("BBBBBBBB") :=
  ⟨extract_last_match_wins
    ("Serial : AAAAAAAA\nSerial : BBBBBBBB\nRevision : CCC")
    (by decide) (by decide), by decide⟩

/-- C4: when one of the extracted fields has a bad length, the serial
number length being neither 8 nor 16 or the revision length being
different from 6, `generate_eui` returns the sentinel whatever the other
field holds. -/
theorem generate_eui_bad_length_sentinel (text sn rev : String)
    (hS : get_rpi_serial_number text = some sn)
    (hR : get_rpi_revision text = some rev)
    (hbad : (sn.length ≠ 8 ∧ sn.length ≠ 16) ∨ rev.length ≠ 6) :
    generate_eui text = some INVALID_EUI := by
  simp only [generate_eui, hS, hR]
  by_cases h1 : sn.length ≠ 16 ∧ sn.length ≠ 8
  · rw [if_pos h1]
  · rw [if_neg h1]
    have h2 : rev.length ≠ 6 := by
      rcases hbad with ⟨ha, hb⟩ | h2
      · exact absurd ⟨hb, ha⟩ h1
      · exact h2
    rw [if_pos h2]

/-- C4 witness: a revision of length 5 forces the sentinel even with a
valid 16 character serial number. -/
theorem generate_eui_bad_length_sentinel_witness :
    generate_eui ("Serial : 1234567890ABCDEF\nRevision : A0314") =
      some INVALID_EUI :=
  generate_eui_bad_length_sentinel
    ("Serial : 1234567890ABCDEF\nRevision : A0314")
    ("1234567890ABCDEF") ("A0314") (by decide) (by decide)
    (Or.inr (by decide))

/-- C7: when the extracted serial number has length 8 or 16 and the
extracted revision has length 6, the assembled string has length exactly
16, so the defensive final length check of `generate_eui` never fires
and the function returns the uppercased assembled string. -/
theorem generate_eui_final_check_unreachable (text sn rev : String)
    (hS : get_rpi_serial_number text = some sn)
    (hR : get_rpi_revision text = some rev)
    (hsn : sn.length = 8 ∨ sn.length = 16)
    (hrev : rev.length = 6) :
    (EUI_FIRST_OCTECT_LOCAL_ADMINISTRED ++ rev ++ normalizeSerial sn).length =
      EUI_CHARS_LENGTH ∧
    generate_eui text = some (strUpper (EUI_FIRST_OCTECT_LOCAL_ADMINISTRED ++
      rev ++ normalizeSerial sn)) := by
  have hns : (normalizeSerial sn).length = 8 := by
    unfold normalizeSerial
    rcases hsn with h8 | h16
    · rw [if_neg (by omega)]
      exact h8
    · rw [if_pos h16]
      rw [string_length_data] at h16 ⊢
      rw [List.length_drop]
      omega
  have h02 : EUI_FIRST_OCTECT_LOCAL_ADMINISTRED.length = 2 := rfl
  have hlen : (EUI_FIRST_OCTECT_LOCAL_ADMINISTRED ++ rev ++
      normalizeSerial sn).length = EUI_CHARS_LENGTH := by
    rw [String.length_append, String.length_append, h02, hrev, hns]
    rfl
  refine ⟨hlen, ?_⟩
  simp only [generate_eui, hS, hR]
  rw [if_neg (by omega), if_neg (by omega), if_neg (not_ne_iff.mpr hlen)]

/-- C7 witness: with a 16 character serial number and a 6 character
revision the assembled string has length 16 and is returned uppercased. -/
theorem generate_eui_final_check_unreachable_witness :
    (EUI_FIRST_OCTECT_LOCAL_ADMINISTRED ++ ("A03140") ++
      normalizeSerial ("1234567890ABCDEF")).length = EUI_CHARS_LENGTH ∧
    generate_eui ("Serial : 1234567890ABCDEF\nRevision : A03140") =
      some (strUpper (EUI_FIRST_OCTECT_LOCAL_ADMINISTRED ++ ("A03140") ++
        normalizeSerial ("1234567890ABCDEF"))) :=
  generate_eui_final_check_unreachable
    ("Serial : 1234567890ABCDEF\nRevision : A03140")
    ("1234567890ABCDEF") ("A03140") (by decide) (by decide)
    (Or.inr (by decide)) (by decide)

/-- C2 counterexample: the code validates only lengths, never character
classes, so a revision of six letters outside the hexadecimal alphabet
reaches the output: the result differs from the sentinel yet contains
characters that are not uppercase hexadecimal digits. -/
theorem generate_eui_nonhex_counterexample :
    generate_eui ("Serial : 9zABCDEF\nRevision : zzzzzz") =
      some ("02ZZZZZZ9ZABCDEF") ∧
    ("02ZZZZZZ9ZABCDEF" : String) ≠ INVALID_EUI ∧
    ¬ ∀ c ∈ ("02ZZZZZZ9ZABCDEF" : String).data, isUpperHexDigit c = true := by
  decide

/-- C2 amended: every non sentinel value returned by `generate_eui` has
length exactly 16 and contains no lowercase letter (the result is passed
through the uppercase mapping); its characters need not be hexadecimal
digits, since field content is never validated. -/
theorem generate_eui_length_and_uppercase (text v : String)
    (h : generate_eui text = some v) (hne : v ≠ INVALID_EUI) :
    v.length = 16 ∧ ∀ c ∈ v.data, c.isLower = false := by
  cases hS : get_rpi_serial_number text with
  | none =>
    simp only [generate_eui, hS] at h
    exact Option.noConfusion h
  | some sn =>
    cases hR : get_rpi_revision text with
    | none =>
      simp only [generate_eui, hS, hR] at h
      exact Option.noConfusion h
    | some rev =>
      simp only [generate_eui, hS, hR] at h
      by_cases h1 : sn.length ≠ 16 ∧ sn.length ≠ 8
      · rw [if_pos h1] at h
        exact absurd (Option.some.inj h).symm hne
      · rw [if_neg h1] at h
        by_cases h2 : rev.length ≠ 6
        · rw [if_pos h2] at h
          exact absurd (Option.some.inj h).symm hne
        · rw [if_neg h2] at h
          by_cases h3 : (EUI_FIRST_OCTECT_LOCAL_ADMINISTRED ++ rev ++
              normalizeSerial sn).length ≠ EUI_CHARS_LENGTH
          · rw [if_pos h3] at h
            exact absurd (Option.some.inj h).symm hne
          · rw [if_neg h3] at h
            have hv : v = strUpper (EUI_FIRST_OCTECT_LOCAL_ADMINISTRED ++
                rev ++ normalizeSerial sn) := (Option.some.inj h).symm
            push_neg at h3
            subst hv
            constructor
            · rw [strUpper_length]
              exact h3
            · intro c hc
              obtain ⟨c', hc', hcc⟩ := List.mem_map.mp hc
              rw [← hcc]
              exact toUpper_isLower c'

/-- C2 amended witness: the standard output value has length 16 and no
lowercase letter. -/
theorem generate_eui_length_and_uppercase_witness :
    ("02A0314090ABCDEF" : String).length = 16 ∧
    ∀ c ∈ ("02A0314090ABCDEF" : String).data, c.isLower = false :=
  generate_eui_length_and_uppercase
    ("Serial : 1234567890ABCDEF\nRevision : A03140") ("02A0314090ABCDEF")
    (by decide) (by decide)

/-- C9: for every file system and path, a failing read yields the empty
string with no propagated error, and a successful read yields the whole
content. -/
theorem file_read_text_fail_soft (fs : String → Except String String)
    (p : String) :
    (∀ e, fs p = Except.error e → file_read_text fs p = ("")) ∧
    (∀ s, fs p = Except.ok s → file_read_text fs p = s) := by
  constructor
  · intro e he
    simp only [file_read_text, he]
  · intro s hs
    simp only [file_read_text, hs]

/-- C9 witness: a missing file gives the empty string and a readable file
gives its content, at the configured information file path. -/
theorem file_read_text_fail_soft_witness :
    file_read_text (fun _ => Except.error ("missing")) F_RPI_INFO = ("") ∧
    file_read_text (fun _ => Except.ok ("Serial : 90ABCDEF")) F_RPI_INFO =
      ("Serial : 90ABCDEF") :=
  ⟨(file_read_text_fail_soft (fun _ => Except.error ("missing"))
      F_RPI_INFO).1 ("missing") rfl,
   (file_read_text_fail_soft (fun _ => Except.ok ("Serial : 90ABCDEF"))
      F_RPI_INFO).2 ("Serial : 90ABCDEF") rfl⟩

/-- C10: two texts with the same extracted revision and 16 character
extracted serial numbers agreeing on their trailing 8 characters produce
the same EUI: the leading 8 serial characters are discarded without any
zero check and never influence the result. -/
theorem generate_eui_ignores_leading_serial (t1 t2 s1 s2 r : String)
    (h1 : get_rpi_serial_number t1 = some s1)
    (h2 : get_rpi_serial_number t2 = some s2)
    (hr1 : get_rpi_revision t1 = some r)
    (hr2 : get_rpi_revision t2 = some r)
    (hl1 : s1.length = 16) (hl2 : s2.length = 16)
    (htail : s1.data.drop 8 = s2.data.drop 8) :
    generate_eui t1 = generate_eui t2 := by
  have hns : normalizeSerial s1 = normalizeSerial s2 := by
    unfold normalizeSerial
    rw [if_pos hl1, if_pos hl2, htail]
  have hc1 : ¬(s1.length ≠ 16 ∧ s1.length ≠ 8) := by omega
  have hc2 : ¬(s2.length ≠ 16 ∧ s2.length ≠ 8) := by omega
  simp only [generate_eui, h1, h2, hr1, hr2, hns]
  rw [if_neg hc1, if_neg hc2]

/-- C10 witness: a serial number with a zero filled leading half and one
with a nonzero leading half, agreeing on the trailing half, give the same
EUI. -/
theorem generate_eui_ignores_leading_serial_witness :
    generate_eui ("Serial : 0000000090ABCDEF\nRevision : A03140") =
      generate_eui ("Serial : DEADBEEF90ABCDEF\nRevision : A03140") :=
  generate_eui_ignores_leading_serial
    ("Serial : 0000000090ABCDEF\nRevision : A03140")
    ("Serial : DEADBEEF90ABCDEF\nRevision : A03140")
    ("0000000090ABCDEF") ("DEADBEEF90ABCDEF") ("A03140")
    (by decide) (by decide) (by decide) (by decide)
    (by decide) (by decide) (by decide)

end RpiGenEui
